import Mathlib

/-!
Verification of the tiny-grpo training code (train.py / train_ds.py).

The development shallowly embeds the parts of the code that the
specification talks about: the reward scorer inside `rollout`, the
advantage normalizer `group_advantages`, the mask construction of
`rollout` and of the main loop, the GRPO loss and KL estimator, and the
side-effect structure of the training orchestrator (diagnostic printing,
checkpoint schedule, rank gating).  Components imported by the training
scripts from files that are not part of the sources (loss.py,
replay_buffer.py, ckpt_utils.py) are modelled from the specification and
are marked as such in their doc comments.

Tensors are embedded as lists (rows of a batch are a `List` of token
`List`s), floating point scalars as real or rational numbers; a NaN
valued torch reduction is modelled as `none`.
-/

namespace TinyGrpo

/-! ## Reward scorer (train.py lines 116-136)

`rollout` scores each decoded completion with
`re.search(r"<answer>(.*?)</answer>", completion, flags=re.DOTALL)`.
Strings are embedded as `List Char`; `re.DOTALL` is implicit because a
character list has no special treatment of newlines.  The regex search
returns the leftmost match, and at that position the non-greedy group
takes the shortest content followed by the closing tag. -/

def openTag : List Char := "<answer>".data

def closeTag : List Char := "</answer>".data

/-- Content of `s` strictly before the first occurrence of the pattern
`pat`, or `none` when `pat` does not occur in `s`.  This is the
non-greedy group capture once an opening tag has been fixed. -/
def takeUntilTag (pat : List Char) : List Char → Option (List Char)
  | [] => none
  | c :: rest =>
    if pat.isPrefixOf (c :: rest) then some []
    else (takeUntilTag pat rest).map (fun l => c :: l)

/-- The group captured by the first (leftmost, non-greedy) match of
`<answer>(.*?)</answer>` in `s`, mirroring
`re.search(r"<answer>(.*?)</answer>", completion, flags=re.DOTALL)`. -/
def extractAnswer : List Char → Option (List Char)
  | [] => none
  | c :: rest =>
    if openTag.isPrefixOf (c :: rest) then
      match takeUntilTag closeTag ((c :: rest).drop openTag.length) with
      | some content => some content
      | none => extractAnswer rest
    else extractAnswer rest

/-- Python substring membership `pat in s` (contiguous substring). -/
def containsSub (pat : List Char) : List Char → Bool
  | [] => pat.isEmpty
  | c :: rest => pat.isPrefixOf (c :: rest) || containsSub pat rest

/-- Reward of one completion against the oracle answer, translated from
the grading branch of `rollout` (train.py lines 126-134, identical in
train_ds.py).  Float rewards are embedded as rationals. -/
def rolloutReward (completion oracle : List Char) : ℚ :=
  match extractAnswer completion with
  | none => 0
  | some answer =>
    if answer = oracle then 1
    else if containsSub oracle answer then 1/2
    else 1/100

/-! ## Advantage normalizer (train.py lines 146-147)

`group_advantages(returns) = (returns - returns.mean()) / (returns.std() + eps)`.
Returns are embedded as a list of reals.  `torch.Tensor.std` uses the
Bessel correction (`correction=1`): with fewer than two elements the
divisor `n - 1` is zero and torch produces NaN; a NaN valued reduction is
modelled as `none`, and `group_advantages` propagates it to the whole
result vector, exactly as NaN propagates through the torch expression. -/

noncomputable def tensor_mean (r : List ℝ) : ℝ := r.sum / (r.length : ℝ)

/-- `torch.Tensor.std`: square root of the Bessel-corrected sample
variance; `none` models the NaN produced when fewer than two elements
are present. -/
noncomputable def tensor_std (r : List ℝ) : Option ℝ :=
  if r.length < 2 then none
  else some (Real.sqrt (((r.map fun x => (x - tensor_mean r) ^ 2).sum) / ((r.length : ℝ) - 1)))

/-- train.py lines 146-147 (identical in train_ds.py lines 142-143). -/
noncomputable def group_advantages (returns : List ℝ) (eps : ℝ := 1e-8) : Option (List ℝ) :=
  (tensor_std returns).map fun s => returns.map fun x => (x - tensor_mean returns) / (s + eps)

/-! ## Mask construction (train.py lines 111-114, 301, 362)

One rollout row: `seq` is the token id sequence (prompt + generated),
`promptLen` the common prompt length, `pad` the padding token id.  The
code builds the action mask as
`action_mask[:, prompt_len:] = True; action_mask[seq == pad] = False;
action_mask = action_mask[:, 1:]`, and the attention mask in `main` as
`sequence_ids != pad_token_id` with `pad_token_id = tokenizer.eos_token_id`. -/

/-- train.py line 301: the eos token id is reused as the pad id
(`pad_token_id = tokenizer.eos_token_id`, after
`tokenizer.pad_token = tokenizer.eos_token` in `load_model`). -/
def pad_token_id (eos_token_id : ℕ) : ℕ := eos_token_id

/-- The boolean mask before the final `[:, 1:]` slice: true exactly at
positions at or past the prompt length whose token differs from `pad`
(train.py lines 111-113). -/
def action_mask_full (seq : List ℕ) (promptLen pad : ℕ) : List Bool :=
  (List.range seq.length).map fun t => decide (promptLen ≤ t) && decide (seq.getD t pad ≠ pad)

/-- train.py line 114: `action_mask = action_mask[:, 1:]`; entry `t`
of the result refers to sequence position `t + 1`. -/
def action_mask (seq : List ℕ) (promptLen pad : ℕ) : List Bool :=
  (action_mask_full seq promptLen pad).drop 1

/-- train.py line 362 / train_ds.py line 292:
`attention_mask = sequence_ids != pad_token_id`, elementwise. -/
def attention_mask (seq : List ℕ) (pad : ℕ) : List Bool :=
  seq.map fun x => decide (x ≠ pad)

/-! ## Experience, KL estimator and GRPO objective

The training scripts import `approx_kl_divergence`, `GRPOLoss` and
`Experience` from loss.py and replay_buffer.py, which are not among the
sources; these components are modelled from the specification
(sections 3, 4.4, 4.5).  A mini-batch tensor of shape
rollouts x tokens is a list of rows; a per-rollout scalar tensor is a
list of reals. -/

/-- Modelled from the spec: section 3, the Experience record stored in
the replay buffer (replay_buffer.py is not among the sources).  All
eight fields are present; `kl` is the divergence captured at rollout
time. -/
structure Experience where
  sequences : List (List ℕ)
  action_log_probs : List (List ℝ)
  log_probs_ref : List (List ℝ)
  returns : List ℝ
  advantages : List ℝ
  attention_mask : List (List Bool)
  action_mask : List (List Bool)
  kl : List (List ℝ)

/-- Modelled from the spec: section 3 invariant, all tensors in one
Experience share the same leading (rollout) dimension. -/
def Experience.sameLeading (e : Experience) : Prop :=
  e.action_log_probs.length = e.sequences.length ∧
  e.log_probs_ref.length = e.sequences.length ∧
  e.returns.length = e.sequences.length ∧
  e.advantages.length = e.sequences.length ∧
  e.attention_mask.length = e.sequences.length ∧
  e.action_mask.length = e.sequences.length ∧
  e.kl.length = e.sequences.length

/-- Modelled from the spec: section 4.4 (loss.py is not among the
sources).  Per-token divergence estimate from the log-ratio `d` between
reference and policy log-probabilities, zeroed outside the action mask
so that only masked positions carry divergence: `exp d - d - 1`. -/
noncomputable def kl_tok (lp ref : ℝ) (m : Bool) : ℝ :=
  let d := if m then ref - lp else 0
  Real.exp d - d - 1

/-- One row of per-token divergence estimates. -/
noncomputable def kl_row (lp ref : List ℝ) (m : List Bool) : List ℝ :=
  ((lp.zip ref).zip m).map fun q => kl_tok q.1.1 q.1.2 q.2

/-- Modelled from the spec: section 4.4, the batched per-token KL
estimate over a rollouts x tokens mini-batch. -/
noncomputable def approx_kl_divergence (log_probs log_probs_ref : List (List ℝ))
    (action_mask : List (List Bool)) : List (List ℝ) :=
  ((log_probs.zip log_probs_ref).zip action_mask).map fun p => kl_row p.1.1 p.1.2 p.2

/-- Masked sum of one row: only positions whose mask entry is true
contribute. -/
noncomputable def maskedSum (xs : List ℝ) (m : List Bool) : ℝ :=
  (((xs.zip m).filter fun q => q.2).map fun q => q.1).sum

/-- Number of masked positions of one row (paired with the values so
that both statistics range over the same positions). -/
def maskedCount (xs : List ℝ) (m : List Bool) : ℕ :=
  ((xs.zip m).filter fun q => q.2).length

noncomputable def maskedSum2D (xss : List (List ℝ)) (mss : List (List Bool)) : ℝ :=
  ((xss.zip mss).map fun p => maskedSum p.1 p.2).sum

def maskedCount2D (xss : List (List ℝ)) (mss : List (List Bool)) : ℕ :=
  ((xss.zip mss).map fun p => maskedCount p.1 p.2).sum

/-- Modelled from the spec: sections 4.4 and 4.5 step 5, the
mask-weighted mean — sum over action-masked positions divided by the
number of action-masked positions, padded and prompt positions excluded. -/
noncomputable def maskedMean2D (xss : List (List ℝ)) (mss : List (List Bool)) : ℝ :=
  maskedSum2D xss mss / (maskedCount2D xss mss : ℝ)

/-- Zero out the entries of one row outside the mask (the elementwise
`tensor * mask` product). -/
def apply_mask_row (xs : List ℝ) (m : List Bool) : List ℝ :=
  (xs.zip m).map fun q => if q.2 then q.1 else 0

def apply_mask2D (xss : List (List ℝ)) (mss : List (List Bool)) : List (List ℝ) :=
  (xss.zip mss).map fun p => apply_mask_row p.1 p.2

/-- Configuration of the GRPO objective (train.py line 323:
`GRPOLoss(clip_eps=clip_eps, kl_weight=kl_weight)`). -/
structure GRPOLossCfg where
  clip_eps : ℝ
  kl_weight : ℝ

/-- Modelled from the spec: section 4.5 steps 1-3, the per-token clipped
surrogate.  `ratio = exp(current - old)`, clamped to
`[1 - clip_eps, 1 + clip_eps]`; the surrogate is
`-min(ratio * advantage, clipped * advantage)`. -/
noncomputable def surr_tok (clip_eps adv lp old : ℝ) : ℝ :=
  let ratio := Real.exp (lp - old)
  let clipped := max (1 - clip_eps) (min (1 + clip_eps) ratio)
  Neg.neg (min (ratio * adv) (clipped * adv))

/-- One row of per-token surrogates; the advantage of the row is
broadcast across its token dimension (spec section 4.5 step 3). -/
noncomputable def surr_row (clip_eps adv : ℝ) (lp old : List ℝ) : List ℝ :=
  (lp.zip old).map fun q => surr_tok clip_eps adv q.1 q.2

/-- Modelled from the spec: section 4.5 step 4, one row of per-token
losses — surrogate plus `kl_weight` times the KL estimate re-computed
from the current log-probabilities `lp` against the stored reference
log-probabilities `ref`. -/
noncomputable def loss_row (cfg : GRPOLossCfg) (adv : ℝ) (lp old ref : List ℝ)
    (m : List Bool) : List ℝ :=
  List.zipWith (fun s k => s + cfg.kl_weight * k) (surr_row cfg.clip_eps adv lp old)
    (kl_row lp ref m)

/-- The batched per-token losses of a mini-batch: each row pairs the
freshly computed log-probabilities with the stored old log-probabilities,
reference log-probabilities, action mask and (broadcast) advantage. -/
noncomputable def per_token_losses (cfg : GRPOLossCfg) (log_probs : List (List ℝ))
    (e : Experience) : List (List ℝ) :=
  ((log_probs.zip e.action_log_probs).zip
      ((e.log_probs_ref.zip e.action_mask).zip e.advantages)).map
    fun p => loss_row cfg p.2.2 p.1.1 p.1.2 p.2.1.1 p.2.1.2

/-- Modelled from the spec: section 4.5, `GRPOLoss.forward` — the scalar
loss (mask-weighted mean of the per-token losses) and the scalar mean KL
for diagnostics, both aggregated over action-masked positions only.  The
`kl` field stored in the Experience at rollout time is not read. -/
noncomputable def GRPOLoss_forward (cfg : GRPOLossCfg) (log_probs : List (List ℝ))
    (e : Experience) : ℝ × ℝ :=
  (maskedMean2D (per_token_losses cfg log_probs e) e.action_mask,
   maskedMean2D (approx_kl_divergence log_probs e.log_probs_ref e.action_mask) e.action_mask)

/-! ## Orchestrator: the non-finite-loss guard (train.py lines 408-435,
train_ds.py lines 337-360)

The control flow and the side effects of the inner training loop are
embedded explicitly.  The float scalar loss of a mini-batch is embedded
as `Option ℚ`: `none` models a non-finite value, so `loss.isfinite()`
is `Option.isSome`.  Scalar values carried by log lines keep the same
embedding. -/

/-- A collated mini-batch as seen by the inner loop: its advantages
tensor and its computed scalar loss (`none` models non-finite). -/
structure MiniBatch where
  advantages : List ℚ
  loss : Option ℚ
  deriving DecidableEq

/-- One console or metrics side effect of the inner loop. -/
inductive LogLine where
  /-- `print(f"Loss not finite, skipping backward, loss={loss}")` -/
  | lossDiag (loss : Option ℚ)
  /-- `print(f"experience.advantages={...}")` with the advantages the
  line actually interpolates -/
  | advDiag (advantages : List ℚ)
  /-- the per-batch kl / grad_norm print and wandb.log -/
  | trainLog
  deriving DecidableEq

/-- Mutable training state touched by one mini-batch: a version counter
for the model parameters (bumped by `loss.backward()` plus
`optimizer.step()`) and the number of optimizer steps taken. -/
structure TrainSt where
  paramsVersion : ℕ
  optSteps : ℕ
  deriving DecidableEq

/-- train.py lines 408-435.  `staleAdvantages` is the value of
`experience.advantages` — the variable `experience` left over from the
rollout collection loop (lines 380-389), which lines 423 and 425
interpolate; the mini-batch being trained is `b` (the code's `exp`).
On a non-finite loss the state is returned unchanged and, on rank 0
only, the diagnostic lines of 421-425 are emitted in order; otherwise
backward and optimizer step run and rank 0 logs kl / grad_norm. -/
def train_batch_step (rank : ℕ) (staleAdvantages : List ℚ) (b : MiniBatch)
    (s : TrainSt) : TrainSt × List LogLine :=
  match b.loss with
  | none =>
    (s, if rank = 0 then
          [LogLine.lossDiag none, LogLine.lossDiag none, LogLine.advDiag staleAdvantages,
           LogLine.lossDiag none, LogLine.advDiag staleAdvantages]
        else [])
  | some _ =>
    (⟨s.paramsVersion + 1, s.optSteps + 1⟩, if rank = 0 then [LogLine.trainLog] else [])

/-- train_ds.py lines 337-360: the non-distributed variant prints the
loss and `exp.advantages` — the advantages of the mini-batch itself —
and there is no rank gating. -/
def train_batch_step_ds (b : MiniBatch) (s : TrainSt) : TrainSt × List LogLine :=
  match b.loss with
  | none => (s, [LogLine.lossDiag none, LogLine.advDiag b.advantages])
  | some _ => (⟨s.paramsVersion + 1, s.optSteps + 1⟩, [LogLine.trainLog])

/-- The inner loop over the mini-batches of one epoch: `continue` moves
on to the next batch, so the fold keeps processing after a skipped one. -/
def train_epoch_ds (bs : List MiniBatch) (s : TrainSt) : TrainSt × List LogLine :=
  match bs with
  | [] => (s, [])
  | b :: rest =>
    let r := train_batch_step_ds b s
    let r2 := train_epoch_ds rest r.1
    (r2.1, r.2 ++ r2.2)

/-! ## Orchestrator: checkpoint schedule and rank gating
(train.py lines 437-448, train_ds.py lines 362-373)

`save_checkpoint` lives in ckpt_utils.py, which is not among the
sources; modelled from the spec (section 6, checkpoint artifact) as the
emission of one save event carrying the step index and the file name,
persisting model parameters and optimizer state. -/

/-- The checkpoint file name used by both variants,
`checkpoint_path / f"step_{k}.pt"`. -/
def ckptName (k : ℕ) : String := "step_" ++ toString k ++ ".pt"

/-- Modelled from the spec: one persisted checkpoint artifact, keyed by
step index and file name (model parameters and optimizer state inside). -/
structure SaveEvent where
  step : ℕ
  file : String
  deriving DecidableEq

/-- The per-step periodic saves common to both variants: a checkpoint is
written at step `k` exactly when `(k + 1) % checkpoint_interval == 0`
(train.py lines 438-444, train_ds.py lines 363-369). -/
def periodic_saves (numSteps interval : ℕ) : List SaveEvent :=
  ((List.range numSteps).filter fun k => (k + 1) % interval == 0).map
    fun k => ⟨k, ckptName k⟩

/-- train.py: periodic saves plus the final save of lines 446-448,
which reuses the step variable of the last iteration (`numSteps - 1`).
With zero steps the final save would raise a NameError on the unbound
`k`; a run is modelled only for `0 < numSteps`. -/
def saves_train (numSteps interval : ℕ) : List SaveEvent :=
  periodic_saves numSteps interval ++ [⟨numSteps - 1, ckptName (numSteps - 1)⟩]

/-- train_ds.py: the final save (lines 371-373) is commented out, so the
run persists the periodic saves only. -/
def saves_ds (numSteps interval : ℕ) : List SaveEvent :=
  periodic_saves numSteps interval

/-- One side-effecting operation of a worker process. -/
inductive Effect where
  | consolePrint
  | metricLog
  | checkpointWrite
  deriving DecidableEq

/-- train.py lines 353-357: the per-rollout console print, guarded by
`dist.get_rank() == 0`. -/
def rolloutLogEffects (rank : ℕ) : List Effect :=
  if rank = 0 then [Effect.consolePrint] else []

/-- train.py lines 392-395: the per-step returns print and wandb.log,
guarded by `dist.get_rank() == 0`. -/
def stepReturnsEffects (rank : ℕ) : List Effect :=
  if rank = 0 then [Effect.consolePrint, Effect.metricLog] else []

/-- train.py lines 431-433: the per-batch kl / grad_norm print and
wandb.log, guarded by `dist.get_rank() == 0`. -/
def batchLogEffects (rank : ℕ) : List Effect :=
  if rank = 0 then [Effect.consolePrint, Effect.metricLog] else []

/-- train.py lines 437-444: the periodic checkpoint block.  Despite the
comment "Save checkpoint only on rank 0", the condition tests only the
path, the interval and `(k + 1) % checkpoint_interval == 0` — the rank
argument is not consulted, so every worker prints and calls
`save_checkpoint`. -/
def checkpointBlockEffects (rank k interval : ℕ) : List Effect :=
  if (k + 1) % interval = 0 then [Effect.consolePrint, Effect.checkpointWrite] else []

/-- train.py lines 446-448: the final save, guarded by
`dist.get_rank() == 0`. -/
def finalSaveEffects (rank : ℕ) : List Effect :=
  if rank = 0 then [Effect.checkpointWrite] else []

/-! ## Theorems -/

section MaskedMeanLemmas

theorem surr_tok_adv_zero (ε x y : ℝ) : surr_tok ε 0 x y = 0 := by
  simp [surr_tok]

theorem kl_tok_eq_zero (lp ref : ℝ) (m : Bool) (h : m = true → lp = ref) :
    kl_tok lp ref m = 0 := by
  cases m with
  | false => simp [kl_tok]
  | true => rw [h rfl]; simp [kl_tok]

theorem maskedSum_eq_zero (xs : List ℝ) (m : List Bool) (h : ∀ x ∈ xs, x = 0) :
    maskedSum xs m = 0 := by
  apply List.sum_eq_zero
  intro y hy
  obtain ⟨q, hq, rfl⟩ := List.mem_map.mp hy
  exact h q.1 (List.of_mem_zip (List.mem_of_mem_filter hq)).1

theorem maskedSum2D_eq_zero (xss : List (List ℝ)) (mss : List (List Bool))
    (h : ∀ row ∈ xss, ∀ x ∈ row, x = 0) : maskedSum2D xss mss = 0 := by
  apply List.sum_eq_zero
  intro y hy
  obtain ⟨p, hp, rfl⟩ := List.mem_map.mp hy
  exact maskedSum_eq_zero p.1 p.2 (h p.1 (List.of_mem_zip hp).1)

theorem maskedMean2D_eq_zero (xss : List (List ℝ)) (mss : List (List Bool))
    (h : ∀ row ∈ xss, ∀ x ∈ row, x = 0) : maskedMean2D xss mss = 0 := by
  rw [maskedMean2D, maskedSum2D_eq_zero xss mss h, zero_div]

theorem maskedSum_map_mul (w : ℝ) (xs : List ℝ) (m : List Bool) :
    maskedSum (xs.map fun x => w * x) m = w * maskedSum xs m := by
  induction xs generalizing m with
  | nil => simp [maskedSum]
  | cons x xs ih =>
    cases m with
    | nil => simp [maskedSum]
    | cons b bs =>
      cases b with
      | false =>
        simpa [maskedSum, List.zip_cons_cons, List.filter_cons] using ih bs
      | true =>
        have := ih bs
        simp [maskedSum, List.zip_cons_cons, List.filter_cons] at this ⊢
        rw [this]
        ring

theorem maskedCount_map_mul (w : ℝ) (xs : List ℝ) (m : List Bool) :
    maskedCount (xs.map fun x => w * x) m = maskedCount xs m := by
  induction xs generalizing m with
  | nil => simp [maskedCount]
  | cons x xs ih =>
    cases m with
    | nil => simp [maskedCount]
    | cons b bs =>
      cases b with
      | false => simpa [maskedCount, List.zip_cons_cons, List.filter_cons] using ih bs
      | true => simpa [maskedCount, List.zip_cons_cons, List.filter_cons] using ih bs

theorem maskedSum2D_map_mul (w : ℝ) (xss : List (List ℝ)) (mss : List (List Bool)) :
    maskedSum2D (xss.map (List.map fun x => w * x)) mss = w * maskedSum2D xss mss := by
  induction xss generalizing mss with
  | nil => simp [maskedSum2D]
  | cons r rs ih =>
    cases mss with
    | nil => simp [maskedSum2D]
    | cons m ms =>
      have := ih ms
      simp [maskedSum2D, List.zip_cons_cons, maskedSum_map_mul] at this ⊢
      rw [this]
      ring

theorem maskedCount2D_map_mul (w : ℝ) (xss : List (List ℝ)) (mss : List (List Bool)) :
    maskedCount2D (xss.map (List.map fun x => w * x)) mss = maskedCount2D xss mss := by
  induction xss generalizing mss with
  | nil => simp [maskedCount2D]
  | cons r rs ih =>
    cases mss with
    | nil => simp [maskedCount2D]
    | cons m ms =>
      simpa [maskedCount2D, List.zip_cons_cons, maskedCount_map_mul] using ih ms

theorem maskedMean2D_map_mul (w : ℝ) (xss : List (List ℝ)) (mss : List (List Bool)) :
    maskedMean2D (xss.map (List.map fun x => w * x)) mss = w * maskedMean2D xss mss := by
  rw [maskedMean2D, maskedMean2D, maskedSum2D_map_mul, maskedCount2D_map_mul, mul_div_assoc]

theorem maskedSum_apply_mask (xs : List ℝ) (m : List Bool) :
    maskedSum (apply_mask_row xs m) m = maskedSum xs m := by
  induction xs generalizing m with
  | nil => simp [maskedSum, apply_mask_row]
  | cons x xs ih =>
    cases m with
    | nil => simp [maskedSum, apply_mask_row]
    | cons b bs =>
      cases b with
      | false => simpa [maskedSum, apply_mask_row, List.zip_cons_cons, List.filter_cons] using ih bs
      | true =>
        have := ih bs
        simp [maskedSum, apply_mask_row, List.zip_cons_cons, List.filter_cons] at this ⊢
        rw [this]

theorem maskedCount_apply_mask (xs : List ℝ) (m : List Bool) :
    maskedCount (apply_mask_row xs m) m = maskedCount xs m := by
  induction xs generalizing m with
  | nil => simp [maskedCount, apply_mask_row]
  | cons x xs ih =>
    cases m with
    | nil => simp [maskedCount, apply_mask_row]
    | cons b bs =>
      cases b with
      | false =>
        simpa [maskedCount, apply_mask_row, List.zip_cons_cons, List.filter_cons] using ih bs
      | true =>
        simpa [maskedCount, apply_mask_row, List.zip_cons_cons, List.filter_cons] using ih bs

theorem maskedSum2D_apply_mask (xss : List (List ℝ)) (mss : List (List Bool)) :
    maskedSum2D (apply_mask2D xss mss) mss = maskedSum2D xss mss := by
  induction xss generalizing mss with
  | nil => simp [maskedSum2D, apply_mask2D]
  | cons r rs ih =>
    cases mss with
    | nil => simp [maskedSum2D, apply_mask2D]
    | cons m ms =>
      simpa [maskedSum2D, apply_mask2D, List.zip_cons_cons, maskedSum_apply_mask] using ih ms

theorem maskedCount2D_apply_mask (xss : List (List ℝ)) (mss : List (List Bool)) :
    maskedCount2D (apply_mask2D xss mss) mss = maskedCount2D xss mss := by
  induction xss generalizing mss with
  | nil => simp [maskedCount2D, apply_mask2D]
  | cons r rs ih =>
    cases mss with
    | nil => simp [maskedCount2D, apply_mask2D]
    | cons m ms =>
      simpa [maskedCount2D, apply_mask2D, List.zip_cons_cons, maskedCount_apply_mask] using ih ms

theorem maskedMean2D_apply_mask (xss : List (List ℝ)) (mss : List (List Bool)) :
    maskedMean2D (apply_mask2D xss mss) mss = maskedMean2D xss mss := by
  rw [maskedMean2D, maskedMean2D, maskedSum2D_apply_mask, maskedCount2D_apply_mask]

theorem kl_row_zero (lp ref : List ℝ) (m : List Bool)
    (h : ∀ q ∈ (lp.zip ref).zip m, q.2 = true → q.1.1 = q.1.2) :
    ∀ x ∈ kl_row lp ref m, x = 0 := by
  intro x hx
  obtain ⟨q, hq, rfl⟩ := List.mem_map.mp hx
  exact kl_tok_eq_zero _ _ _ (h q hq)

theorem zipWith_zero_add (w : ℝ) (s l : List ℝ) (hs : ∀ x ∈ s, x = 0)
    (hl : l.length ≤ s.length) :
    List.zipWith (fun a k => a + w * k) s l = l.map fun k => w * k := by
  induction s generalizing l with
  | nil =>
    have : l = [] := List.eq_nil_of_length_eq_zero (Nat.le_zero.mp (by simpa using hl))
    simp [this]
  | cons a as ih =>
    cases l with
    | nil => simp
    | cons b bs =>
      have ha : a = 0 := hs a (by simp)
      simp only [List.zipWith_cons_cons, List.map_cons, ha, zero_add]
      exact congrArg _ (ih bs (fun x hx => hs x (by simp [hx])) (by simpa using hl))

theorem loss_row_adv_zero (cfg : GRPOLossCfg) (lp ref : List ℝ) (m : List Bool) :
    loss_row cfg 0 lp lp ref m = (kl_row lp ref m).map fun k => cfg.kl_weight * k := by
  rw [loss_row]
  apply zipWith_zero_add
  · intro x hx
    obtain ⟨q, hq, rfl⟩ := List.mem_map.mp hx
    exact surr_tok_adv_zero cfg.clip_eps q.1 q.2
  · simp only [surr_row, kl_row, List.length_map, List.length_zip]
    omega

theorem ptl_rows_adv_zero (cfg : GRPOLossCfg) (olds refs : List (List ℝ))
    (masks : List (List Bool)) (advs : List ℝ)
    (hr : refs.length = olds.length) (hm : masks.length = olds.length)
    (ha : advs.length = olds.length) (h0 : ∀ a ∈ advs, a = 0) :
    ((olds.zip olds).zip ((refs.zip masks).zip advs)).map
        (fun p => loss_row cfg p.2.2 p.1.1 p.1.2 p.2.1.1 p.2.1.2)
      = (((olds.zip refs).zip masks).map fun p => kl_row p.1.1 p.1.2 p.2).map
          (List.map fun k => cfg.kl_weight * k) := by
  induction olds generalizing refs masks advs with
  | nil =>
    have : refs = [] := List.eq_nil_of_length_eq_zero (by simpa using hr)
    have hm2 : masks = [] := List.eq_nil_of_length_eq_zero (by simpa using hm)
    have ha2 : advs = [] := List.eq_nil_of_length_eq_zero (by simpa using ha)
    simp [this, hm2, ha2]
  | cons o os ih =>
    cases refs with
    | nil => simp at hr
    | cons r rs =>
      cases masks with
      | nil => simp at hm
      | cons m ms =>
        cases advs with
        | nil => simp at ha
        | cons a advss =>
          have ha0 : a = 0 := h0 a (by simp)
          simp only [List.zip_cons_cons, List.map_cons, ha0]
          refine congrArg₂ _ (loss_row_adv_zero cfg o r m) ?_
          exact ih rs ms advss (by simpa using hr) (by simpa using hm) (by simpa using ha)
            (fun x hx => h0 x (by simp [hx]))

end MaskedMeanLemmas

/-- C1: for every generated completion text and oracle answer string,
the reward is decided by the first non-greedy answer-tag match (dot
matching newlines), in priority order: 0 when no delimited content is
found; 1.0 when the content exactly equals the oracle; 0.5 when the
oracle is a proper substring of the content; 0.01 otherwise — including
the four quoted instances, plus a first-match, a non-greedy and a
newline-spanning instance. -/
theorem C1_reward_scoring :
    (∀ c o, extractAnswer c = none → rolloutReward c o = 0) ∧
    (∀ c o a, extractAnswer c = some a → a = o → rolloutReward c o = 1) ∧
    (∀ c o a, extractAnswer c = some a → a ≠ o → containsSub o a = true →
      rolloutReward c o = 1/2) ∧
    (∀ c o a, extractAnswer c = some a → a ≠ o → containsSub o a = false →
      rolloutReward c o = 1/100) ∧
    rolloutReward "<answer>42</answer>".data "42".data = 1 ∧
    rolloutReward "<answer>the value is 420, not 42</answer>".data "42".data = 1/2 ∧
    rolloutReward "<answer>7</answer>".data "42".data = 1/100 ∧
    rolloutReward "no tags here".data "42".data = 0 ∧
    rolloutReward "<answer>1</answer><answer>42</answer>".data "42".data = 1/100 ∧
    rolloutReward "<answer>42</answer></answer>".data "42".data = 1 ∧
    rolloutReward "<answer>4\n2</answer>".data "42".data = 1/100 := by
  refine ⟨?_, ?_, ?_, ?_, by rfl, by rfl, by rfl, by rfl, by rfl, by rfl, by rfl⟩
  · intro c o h; simp [rolloutReward, h]
  · intro c o a h ha; subst ha; simp [rolloutReward, h]
  · intro c o a h ha hsub; simp [rolloutReward, h, ha, hsub]
  · intro c o a h ha hsub; simp [rolloutReward, h, ha, hsub]

/-- C1 witness: the substring branch applied at a concrete completion. -/
theorem C1_reward_scoring_witness :
    extractAnswer "<answer>the value is 420, not 42</answer>".data =
      some "the value is 420, not 42".data ∧
    rolloutReward "<answer>the value is 420, not 42</answer>".data "42".data = 1/2 :=
  ⟨by decide, C1_reward_scoring.2.2.1 _ _ "the value is 420, not 42".data
    (by decide) (by decide) (by decide)⟩

/-- C2 counterexample: for the constant return vector `[5]` of positive
length 1, the Bessel-corrected `returns.std()` divides by `n - 1 = 0`
and is NaN (modelled `none`), which propagates to the whole result — a
different `Option` constructor from the zero vector `some [0]` the claim
requires, so the claim fails at length 1. -/
theorem C2_counterexample : group_advantages [(5:ℝ)] = none := by
  simp [group_advantages, tensor_std]

/-- C2 (amended): for every constant return vector with at least two
entries, the standard deviation is exactly 0, the added ε = 1e-8 keeps
the divisor nonzero, and `group_advantages` is exactly the zero
vector. -/
theorem C2_advantages_zero (n : ℕ) (c : ℝ) (hn : 2 ≤ n) :
    tensor_std (List.replicate n c) = some 0 ∧
    ((0:ℝ) + 1e-8 ≠ 0) ∧
    group_advantages (List.replicate n c) = some (List.replicate n 0) := by
  have hne : (n : ℝ) ≠ 0 := by
    have : 0 < n := lt_of_lt_of_le (by norm_num) hn
    exact_mod_cast this.ne'
  have hmean : tensor_mean (List.replicate n c) = c := by
    simp only [tensor_mean, List.sum_replicate, List.length_replicate, nsmul_eq_mul]
    exact mul_div_cancel_left₀ c hne
  have hstd : tensor_std (List.replicate n c) = some 0 := by
    simp only [tensor_std, List.length_replicate, hmean, List.map_replicate, sub_self,
      List.sum_replicate, smul_zero, zero_div, Real.sqrt_zero, if_neg (Nat.not_lt.mpr hn)]
    norm_num
  refine ⟨hstd, by norm_num, ?_⟩
  simp [group_advantages, hstd, hmean, List.map_replicate, sub_self, zero_div]

/-- C2 witness: a concrete constant group of size 3. -/
theorem C2_advantages_zero_witness :
    2 ≤ 3 ∧ group_advantages (List.replicate 3 (2:ℝ)) = some (List.replicate 3 0) :=
  ⟨by norm_num, (C2_advantages_zero 3 2 (by norm_num)).2.2⟩

/-- C6: the subset invariant — whenever the action mask of a rollout is
true at entry `t` (which refers to sequence token `t + 1`, the mask
being one entry shorter than the sequence), the attention mask is true
at token `t + 1`. -/
theorem C6_action_subset_attention (seq : List ℕ) (promptLen pad t : ℕ)
    (h : (action_mask seq promptLen pad)[t]? = some true) :
    (attention_mask seq pad)[t+1]? = some true := by
  unfold action_mask action_mask_full at h
  simp only [List.getElem?_drop, List.getElem?_map] at h
  cases ho : (List.range seq.length)[1+t]? with
  | none => rw [ho] at h; simp at h
  | some v =>
    rw [ho] at h
    rw [List.getElem?_eq_some] at ho
    obtain ⟨hb, hval⟩ := ho
    rw [List.length_range] at hb
    rw [List.getElem_range] at hval
    subst hval
    simp only [Option.map_some', Option.some.injEq, Bool.and_eq_true, decide_eq_true_eq] at h
    have hb' : t + 1 < seq.length := by omega
    have h2 := h.2
    rw [Nat.add_comm 1 t] at h2
    have hg : seq.getD (t+1) pad = seq[t+1] := by
      rw [List.getD_eq_getElem?_getD, List.getElem?_eq_getElem hb']
      rfl
    rw [hg] at h2
    unfold attention_mask
    rw [List.getElem?_map, List.getElem?_eq_getElem hb']
    simp [h2]

/-- C6 witness: sequence `[5, 6, 7, 0]`, prompt length 2, pad id 0; the
action mask marks entry 1, and the attention mask holds at token 2. -/
theorem C6_action_subset_attention_witness :
    (action_mask [5, 6, 7, 0] 2 0)[1]? = some true ∧
    (attention_mask [5, 6, 7, 0] 0)[2]? = some true :=
  ⟨by decide, C6_action_subset_attention [5, 6, 7, 0] 2 0 1 (by decide)⟩

/-- C10: the attention mask of an assembled Experience is true at
exactly the positions whose token id differs from the eos token id
(reused as the pad id); a genuine eos token — terminating a completion
or inside the prompt — is therefore excluded from attention exactly like
padding, with no distinction between the two. -/
theorem C10_attention_excludes_eos (seq : List ℕ) (eos : ℕ) :
    attention_mask seq (pad_token_id eos) = seq.map (fun x => decide (x ≠ eos)) ∧
    ∀ (t x : ℕ), seq[t]? = some x →
      ((attention_mask seq (pad_token_id eos))[t]? = some true ↔ x ≠ eos) := by
  refine ⟨rfl, fun t x h => ?_⟩
  unfold attention_mask pad_token_id
  rw [List.getElem?_map, h]
  simp

/-- C10 witness: with eos id 0 and sequence `[7, 0]`, position 0 (token
7) is attended. -/
theorem C10_attention_excludes_eos_witness :
    (attention_mask [7, 0] (pad_token_id 0))[0]? = some true :=
  ((C10_attention_excludes_eos [7, 0] 0).2 0 7 (by decide)).mpr (by decide)

/-- C7: on a non-finite loss both variants leave the training state
unchanged (no backward pass, no optimizer step) and the epoch loop keeps
going, but the train.py diagnostic interpolates `experience.advantages`
— the last collected rollout group, left over from the collection loop —
instead of the advantages of the mini-batch being trained (`exp`, which
train_ds.py correctly prints).  Evaluated at a mini-batch whose
advantages `[1]` differ from the stale `[0]`: the emitted lines carry
`[0]` and never `[1]`. -/
theorem C7_skip_and_stale_diag :
    (∀ (rank : ℕ) (stale adv : List ℚ) (s : TrainSt),
      (train_batch_step rank stale ⟨adv, none⟩ s).1 = s) ∧
    (∀ (adv : List ℚ) (s : TrainSt), (train_batch_step_ds ⟨adv, none⟩ s).1 = s) ∧
    train_batch_step 0 [0] ⟨[1], none⟩ ⟨0, 0⟩ =
      (⟨0, 0⟩, [LogLine.lossDiag none, LogLine.lossDiag none, LogLine.advDiag [0],
                LogLine.lossDiag none, LogLine.advDiag [0]]) ∧
    LogLine.advDiag [1] ∉ (train_batch_step 0 [0] ⟨[1], none⟩ ⟨0, 0⟩).2 ∧
    train_batch_step_ds ⟨[1], none⟩ ⟨0, 0⟩ =
      (⟨0, 0⟩, [LogLine.lossDiag none, LogLine.advDiag [1]]) ∧
    (train_epoch_ds [⟨[1], none⟩, ⟨[2], some 5⟩] ⟨0, 0⟩).1 = ⟨1, 1⟩ :=
  ⟨fun _ _ _ _ => rfl, fun _ _ => rfl, by decide, by decide, by decide, by decide⟩

/-- C7 witness: the skip branch applied at a concrete non-finite
mini-batch. -/
theorem C7_skip_and_stale_diag_witness :
    (train_batch_step 3 [0] ⟨[1], none⟩ ⟨7, 7⟩).1 = ⟨7, 7⟩ :=
  C7_skip_and_stale_diag.1 3 [0] [1] ⟨7, 7⟩

/-- C8 counterexample: a one-step run of the non-distributed variant
with checkpoint_interval 20 persists nothing at all — in particular no
end-of-training checkpoint, the final save of train_ds.py lines 371-373
being commented out — where the claim requires one checkpoint to be
persisted once at the end of training. -/
theorem C8_counterexample : saves_ds 1 20 = [] := by decide

/-- C8 (amended): in both variants, a periodic checkpoint is persisted
at step `k` exactly when `(k + 1)` is a multiple of
`checkpoint_interval`, to one file per saved step named `step_{k}.pt`;
the distributed variant additionally persists one checkpoint at the end
of training (reusing the last step index), while the non-distributed
variant persists no end-of-training checkpoint. -/
theorem C8_checkpoint_schedule (n interval : ℕ) (hn : 0 < n) :
    (∀ k : ℕ, (⟨k, ckptName k⟩ : SaveEvent) ∈ periodic_saves n interval ↔
      k < n ∧ (k + 1) % interval = 0) ∧
    saves_train n interval = periodic_saves n interval ++ [⟨n - 1, ckptName (n - 1)⟩] ∧
    saves_ds n interval = periodic_saves n interval := by
  refine ⟨fun k => ?_, rfl, rfl⟩
  unfold periodic_saves
  constructor
  · intro hmem
    obtain ⟨a, ha, heq⟩ := List.mem_map.mp hmem
    obtain ⟨ha1, ha2⟩ := List.mem_filter.mp ha
    have hak : a = k := congrArg SaveEvent.step heq
    subst hak
    exact ⟨List.mem_range.mp ha1, by simpa using ha2⟩
  · rintro ⟨h1, h2⟩
    exact List.mem_map.mpr ⟨k, List.mem_filter.mpr ⟨List.mem_range.mpr h1, by simpa using h2⟩, rfl⟩

/-- C8 witness: a 40-step run with interval 20. -/
theorem C8_checkpoint_schedule_witness :
    0 < 40 ∧ saves_train 40 20 = periodic_saves 40 20 ++ [⟨39, ckptName 39⟩] :=
  ⟨by decide, (C8_checkpoint_schedule 40 20 (by decide)).2.1⟩

/-- C9: code bug — the rollout, per-step, per-batch and final-save side
effects of train.py are gated on `dist.get_rank() == 0`, but the
periodic checkpoint block (despite its own comment "Save checkpoint only
on rank 0") tests only the interval condition, so every non-primary
worker also prints and calls `save_checkpoint` there: evaluated at rank
1, step 19, interval 20. -/
theorem C9_ungated_checkpoint_block :
    checkpointBlockEffects 1 19 20 = [Effect.consolePrint, Effect.checkpointWrite] ∧
    (∀ rank k interval : ℕ, (k + 1) % interval = 0 →
      checkpointBlockEffects rank k interval =
        [Effect.consolePrint, Effect.checkpointWrite]) ∧
    rolloutLogEffects 1 = [] ∧ stepReturnsEffects 1 = [] ∧ batchLogEffects 1 = [] ∧
    finalSaveEffects 1 = [] := by
  refine ⟨by decide, fun rank k interval hk => ?_, by decide, by decide, by decide, by decide⟩
  simp [checkpointBlockEffects, hk]

/-- C9 witness: the ungated block applied at a non-primary rank. -/
theorem C9_ungated_checkpoint_block_witness :
    (39 + 1) % 20 = 0 ∧
    checkpointBlockEffects 2 39 20 = [Effect.consolePrint, Effect.checkpointWrite] :=
  ⟨by decide, C9_ungated_checkpoint_block.2.1 2 39 20 (by decide)⟩

/-- C3: the KL penalty inside the training loss is re-estimated from the
freshly recomputed policy log-probabilities against the stored reference
log-probabilities — the loss and the per-token losses are invariant
under arbitrary changes of the `kl` field stored in the Experience at
rollout time, and the returned mean KL is the masked mean of the
estimator applied to the fresh log-probabilities. -/
theorem C3_kl_reestimated (cfg : GRPOLossCfg) (lp : List (List ℝ)) (e : Experience)
    (kl' : List (List ℝ)) :
    GRPOLoss_forward cfg lp { e with kl := kl' } = GRPOLoss_forward cfg lp e ∧
    per_token_losses cfg lp { e with kl := kl' } = per_token_losses cfg lp e ∧
    (GRPOLoss_forward cfg lp e).2 =
      maskedMean2D (approx_kl_divergence lp e.log_probs_ref e.action_mask) e.action_mask :=
  ⟨rfl, rfl, rfl⟩

/-- C4: when the freshly computed log-probabilities equal the stored
`action_log_probs` elementwise and all advantages are zero, the clipped
surrogate vanishes at every token and the scalar loss equals
`kl_weight` times the mean KL, the mean ranging over action-masked
positions only. -/
theorem C4_zero_advantage_loss (cfg : GRPOLossCfg) (lp : List (List ℝ)) (e : Experience)
    (hlp : lp = e.action_log_probs)
    (hadv : ∀ a ∈ e.advantages, a = 0)
    (hwf : e.sameLeading) :
    (∀ a ∈ e.advantages, ∀ x y : ℝ, surr_tok cfg.clip_eps a x y = 0) ∧
    (GRPOLoss_forward cfg lp e).1 =
      cfg.kl_weight *
        maskedMean2D (approx_kl_divergence lp e.log_probs_ref e.action_mask) e.action_mask ∧
    (GRPOLoss_forward cfg lp e).1 = cfg.kl_weight * (GRPOLoss_forward cfg lp e).2 := by
  obtain ⟨h1, h2, _, h4, _, h6, _⟩ := hwf
  subst hlp
  have hptl : per_token_losses cfg e.action_log_probs e
      = (approx_kl_divergence e.action_log_probs e.log_probs_ref e.action_mask).map
          (List.map fun k => cfg.kl_weight * k) :=
    ptl_rows_adv_zero cfg e.action_log_probs e.log_probs_ref e.action_mask e.advantages
      (by omega) (by omega) (by omega) hadv
  refine ⟨fun a ha x y => by rw [hadv a ha]; exact surr_tok_adv_zero cfg.clip_eps x y, ?_, ?_⟩
  · show maskedMean2D (per_token_losses cfg e.action_log_probs e) e.action_mask = _
    rw [hptl, maskedMean2D_map_mul]
  · show maskedMean2D (per_token_losses cfg e.action_log_probs e) e.action_mask = _
    rw [hptl, maskedMean2D_map_mul]
    rfl

/-- C4 witness: a singleton mini-batch with matching log-probabilities
and zero advantages. -/
theorem C4_zero_advantage_loss_witness :
    (GRPOLoss_forward ⟨0.2, 0.01⟩ [[(1:ℝ), 2]]
        ⟨[[9, 9]], [[(1:ℝ), 2]], [[(1:ℝ), 2]], [0], [0], [[true, true]], [[true, false]],
          [[0, 0]]⟩).1
      = (0.01:ℝ) * (GRPOLoss_forward ⟨0.2, 0.01⟩ [[(1:ℝ), 2]]
        ⟨[[9, 9]], [[(1:ℝ), 2]], [[(1:ℝ), 2]], [0], [0], [[true, true]], [[true, false]],
          [[0, 0]]⟩).2 :=
  (C4_zero_advantage_loss ⟨0.2, 0.01⟩ [[(1:ℝ), 2]]
    ⟨[[9, 9]], [[(1:ℝ), 2]], [[(1:ℝ), 2]], [0], [0], [[true, true]], [[true, false]],
      [[0, 0]]⟩ rfl (by simp) (by simp [Experience.sameLeading])).2.2

/-- C5: when policy and reference log-probabilities agree at every
action-masked position, the per-token divergence estimate is zero at
every position and the masked-mean KL is 0; and positions outside the
action mask contribute nothing to the aggregate — zeroing all unmasked
entries never changes the masked mean. -/
theorem C5_kl_zero_when_equal (lp ref : List (List ℝ)) (mask : List (List Bool))
    (h : ∀ p ∈ (lp.zip ref).zip mask, ∀ q ∈ (p.1.1.zip p.1.2).zip p.2,
      q.2 = true → q.1.1 = q.1.2) :
    (∀ row ∈ approx_kl_divergence lp ref mask, ∀ x ∈ row, x = 0) ∧
    maskedMean2D (approx_kl_divergence lp ref mask) mask = 0 ∧
    ∀ (xss : List (List ℝ)) (mss : List (List Bool)),
      maskedMean2D (apply_mask2D xss mss) mss = maskedMean2D xss mss := by
  have hz : ∀ row ∈ approx_kl_divergence lp ref mask, ∀ x ∈ row, x = 0 := by
    intro row hrow
    simp only [approx_kl_divergence] at hrow
    obtain ⟨p, hp, rfl⟩ := List.mem_map.mp hrow
    exact kl_row_zero p.1.1 p.1.2 p.2 (h p hp)
  exact ⟨hz, maskedMean2D_eq_zero _ mask hz, maskedMean2D_apply_mask⟩

/-- C5 witness: one row whose masked position agrees and whose unmasked
position differs. -/
theorem C5_kl_zero_when_equal_witness :
    maskedMean2D (approx_kl_divergence [[(1:ℝ), 2]] [[(1:ℝ), 5]] [[true, false]])
      [[true, false]] = 0 :=
  (C5_kl_zero_when_equal [[(1:ℝ), 2]] [[(1:ℝ), 5]] [[true, false]] (by
    intro p hp q hq hqt
    simp at hp
    subst hp
    simp at hq
    rcases hq with hq | hq
    · simp [hq]
    · rw [hq] at hqt
      simp at hqt)).2.1

end TinyGrpo
